import Mathlib

/-!
Verification development for the B2B_Communication mesh-chat repository.

The repository contains several Python variants of the same mesh-node
protocol.  This file gives a shallow embedding of the two variants the
claims talk about:

* `src/src/mesh/mesh_node.py` (class `MeshNode`, the desktop simulation
  node) — embedded below as `SimNode` together with `handleData`,
  `handleHello`, `handlePacket`, `startSim`, `stopSim`, `runSim`.
* `src/mesh_chat.py` (class `MeshNode`, the broadcast chat node; the
  Termux variant `src/mesh_chat_termux.py` has byte-identical dedup and
  sweep logic) — embedded as `ChatNode` together with `handleMessage`,
  `handleChatHello`, `cleanupSweep`, `runChat`.

Modelling conventions, used throughout:

* Python dicts probed with `.get` become structures of `Option`-typed
  fields; a missing key is `none`.
* Python dicts used as tables (`neighbors`, `routing_table`, `peers`)
  become association lists with distinct keys; `dput` implements
  Python's `d[k] = v` (overwrite in place, append if absent) and `dget`
  implements `d.get(k)`.
* Python string truthiness (`if not x`) is `truthy`, which collapses
  both a missing field and the empty string to `none`.
* `time.time()` timestamps are modelled as exact integers; only
  comparisons of timestamps occur in the embedded code.
* Network sends (`self._send(packet, addr)` and broadcast `sendto`) are
  returned as explicit lists of outputs instead of performing I/O.
* The `on_message` / `on_peers_update` callbacks are modelled as always
  registered; each invocation is appended to a log (`onMessageCalls`,
  `onMessageLog`) or counted (`peersUpdateCount`).  Fields of the
  source objects that no embedded logic ever reads (sockets, thread
  handles, wall-clock timestamps inside packets, `listen_port`) are
  omitted.
* CPython's `set` does not expose a specified iteration order, so the
  `mesh_chat.py` dedup truncation `set(list(s)[-500:])` is embedded
  with the iteration order as an explicit parameter `enum`; the only
  guarantee Python gives is that `list(s)` is some permutation of the
  set's contents, which the cache (kept canonically in insertion order)
  supplies to `enum`.
-/

set_option maxRecDepth 100000

namespace MeshSpec

/-- Python `d.get(k)` for an association-list dict. -/
def dget {β α : Type} [DecidableEq β] : List (β × α) → β → Option α
  | [], _ => none
  | kv :: tl, k => if kv.1 = k then some kv.2 else dget tl k

/-- Python `d[k] = v` for an association-list dict with distinct keys:
overwrite the existing entry in place, otherwise append. -/
def dput {β α : Type} [DecidableEq β] : List (β × α) → β → α → List (β × α)
  | [], k, v => [(k, v)]
  | kv :: tl, k, v => if kv.1 = k then (k, v) :: tl else kv :: dput tl k v

/-- Python truthiness of an optional string: `None` and the empty string
are falsy (`if not x: return`). -/
def truthy : Option String → Option String
  | some s => if s = "" then none else some s
  | none => none

/-- Transport address, an (ip, port) pair as used on the UDP socket. -/
def Addr : Type := String × Int

instance : DecidableEq Addr := instDecidableEqProd

/-- Wire packet of `src/src/mesh/mesh_node.py`, a JSON object probed via
`packet.get`; every field the handlers read is optional.  The
informational `timestamp` and `port` fields are never read by any
handler and are omitted. -/
structure SimPacket where
  ptype : Option String
  msg_id : Option String
  source : Option String
  dest : Option String
  ttl : Option Int
  payload : Option String
  prev_hop : Option String
  node_id : Option String
deriving DecidableEq, Repr

/-- One entry of the in-memory inbox of `mesh_node.py` (the `delivery`
dict built in `_handle_data`); its wall-clock `timestamp` is omitted. -/
structure DataDelivery where
  src : Option String
  id : String
  payload : Option String
deriving DecidableEq, Repr

/-- An outbound datagram: the packet and the address it is sent to. -/
def SimSend : Type := SimPacket × Addr

instance : DecidableEq SimSend := instDecidableEqProd

/-- State of a `src/src/mesh/mesh_node.py` `MeshNode`: `node_id`,
`neighbors` (id to address), `routing_table` (destination id to next-hop
id), `sequence_num`, the unbounded dedup set `delivered_messages`
(kept as a duplicate-free list), the `running` flag and the `inbox`.
`onMessageCalls` logs every invocation of the `on_message` callback. -/
structure SimNode where
  node_id : String
  neighbors : List (String × Addr)
  routing_table : List (String × String)
  sequence_num : Nat
  delivered_messages : List String
  running : Bool
  inbox : List DataDelivery
  onMessageCalls : List DataDelivery
deriving DecidableEq

/-- A freshly constructed `MeshNode(node_id, port)`. -/
def initSim (nid : String) : SimNode :=
  { node_id := nid, neighbors := [], routing_table := [], sequence_num := 0,
    delivered_messages := [], running := false, inbox := [], onMessageCalls := [] }

/-- The HELLO packet `_send_hello` builds (its unread `port` and
`timestamp` fields omitted). -/
def helloPkt (nid : String) : SimPacket :=
  { ptype := some "HELLO", msg_id := none, source := none, dest := none,
    ttl := none, payload := none, prev_hop := none, node_id := some nid }

/-- Method `start` of `mesh_node.py`: return immediately when already
running, otherwise set the running flag (the spawned threads are the
loops modelled elsewhere as explicit steps). -/
def startSim (s : SimNode) : SimNode :=
  if s.running then s else { s with running := true }

/-- Method `stop` of `mesh_node.py`: clear the running flag; closing the
already-closed socket and joining the loops have no further effect on
the modelled state. -/
def stopSim (s : SimNode) : SimNode :=
  { s with running := false }

/-- Method `_handle_hello`: learn the neighbor and the direct route to
it, then answer with a HELLO. -/
def handleHello (s : SimNode) (p : SimPacket) (addr : Addr) : SimNode × List SimSend :=
  match truthy p.node_id with
  | none => (s, [])
  | some nid =>
    ({ s with neighbors := dput s.neighbors nid addr,
              routing_table := dput s.routing_table nid nid },
     [(helloPkt s.node_id, addr)])

/-- The flood branch of `_forward`: send to every neighbor except the
one whose id equals the packet's current `prev_hop` field. -/
def floodExcept (s : SimNode) (p : SimPacket) : List SimSend :=
  (s.neighbors.filter (fun kv => ¬ p.prev_hop = some kv.1)).map (fun kv => (p, kv.2))

/-- Lookup `self.routing_table.get(dest)` of `_forward` with the
subsequent truthiness test; a packet without a `dest` key looks up the
key `None`, which is never present. -/
def nextHopOf (s : SimNode) (dest : Option String) : Option String :=
  match dest with
  | some d => truthy (dget s.routing_table d)
  | none => none

/-- Method `_forward`: unicast via the routing table when the next hop
is a truthy id that is currently a neighbor, otherwise flood to all
neighbors except the packet's `prev_hop`. -/
def forwardPkt (s : SimNode) (p : SimPacket) : List SimSend :=
  match nextHopOf s p.dest with
  | some h =>
    match dget s.neighbors h with
    | some addr => [(p, addr)]
    | none => floodExcept s p
  | none => floodExcept s p

/-- The ACK packet `_send_ack` builds (unread `timestamp` omitted). -/
def ackPkt (nid : String) (d : String) (m : String) : SimPacket :=
  { ptype := some "ACK", msg_id := some m, source := some nid, dest := some d,
    ttl := none, payload := none, prev_hop := none, node_id := none }

/-- The elif/else tail of `_send_ack`: send directly to the destination
when it is itself a neighbor, otherwise flood to every neighbor. -/
def ackFallback (s : SimNode) (d : String) (m : String) : List SimSend :=
  match dget s.neighbors d with
  | some addr => [(ackPkt s.node_id d m, addr)]
  | none => s.neighbors.map (fun kv => (ackPkt s.node_id d m, kv.2))

/-- Method `_send_ack`: do nothing for a falsy destination; otherwise
build the ACK packet and send it via the routing table, directly to the
destination when it is itself a neighbor, or flood it as a fallback. -/
def sendAck (s : SimNode) (dest : Option String) (msg_id : String) : List SimSend :=
  match truthy dest with
  | none => []
  | some d =>
    match truthy (dget s.routing_table d) with
    | some h =>
      match dget s.neighbors h with
      | some addr => [(ackPkt s.node_id d msg_id, addr)]
      | none => ackFallback s d msg_id
    | none => ackFallback s d msg_id

/-- Lines 125 to 129 of `mesh_node.py`'s `_handle_data`: learn the
reverse route to `source` via `prev_hop` when both are truthy. -/
def learnReverse (s : SimNode) (p : SimPacket) : SimNode :=
  match truthy p.prev_hop, truthy p.source with
  | some ph, some src => { s with routing_table := dput s.routing_table src ph }
  | _, _ => s

/-- Method `_handle_data` of `src/src/mesh/mesh_node.py`, step for one
inbound DATA packet: falsy `msg_id` is dropped; a `msg_id` already in
`delivered_messages` is dropped; otherwise the id is recorded, the
reverse route is learned (`learnReverse`), and the packet is either
delivered locally (inbox append, `on_message` call, ACK back toward
the source) when `dest` equals the own id, dropped when the remaining
ttl is not positive, or re-emitted with ttl decremented and `prev_hop`
rewritten to the own id. -/
def handleData (s : SimNode) (p : SimPacket) : SimNode × List SimSend :=
  match truthy p.msg_id with
  | none => (s, [])
  | some m =>
    if m ∈ s.delivered_messages then (s, [])
    else
      let s1 := { s with delivered_messages := s.delivered_messages ++ [m] }
      let ttl : Int := p.ttl.getD 0
      let s2 := learnReverse s1 p
      if p.dest = some s.node_id then
        let d : DataDelivery := { src := p.source, id := m, payload := p.payload }
        let s3 := { s2 with inbox := s2.inbox ++ [d],
                            onMessageCalls := s2.onMessageCalls ++ [d] }
        (s3, sendAck s3 p.source m)
      else if ttl ≤ 0 then (s2, [])
      else
        let fp := { p with ttl := some (ttl - 1), prev_hop := some s.node_id }
        (s2, forwardPkt s2 fp)

/-- Method `_handle_packet`: dispatch on the `type` field; ACK packets
and unknown types are ignored. -/
def handlePacket (s : SimNode) (p : SimPacket) (addr : Addr) : SimNode × List SimSend :=
  if p.ptype = some "HELLO" then handleHello s p addr
  else if p.ptype = some "DATA" then handleData s p
  else (s, [])

/-- Run the node's receive loop over a list of decoded inbound packets
with their sender addresses. -/
def runSim (s : SimNode) : List (SimPacket × Addr) → SimNode
  | [] => s
  | pa :: rest => runSim (handlePacket s pa.1 pa.2).1 rest

/-- Wire packet of `src/mesh_chat.py`, again a JSON object probed via
`packet.get`: field `dst` models the wire field named `to` and `src`
models the wire field named `from` (both Lean keywords), `node_id` is
used by HELLO. -/
structure ChatPacket where
  ptype : Option String
  msg_id : Option String
  dst : Option String
  src : Option String
  payload : Option String
  ttl : Option Int
  node_id : Option String
deriving DecidableEq, Repr

/-- Log entry for one `on_message(from_id, payload)` invocation of
`mesh_chat.py`; the triggering packet's `msg_id` is recorded alongside
the two callback arguments so that invocations can be counted per
message id. -/
structure ChatCall where
  msg_id : Option String
  src : Option String
  payload : Option String
deriving DecidableEq, Repr

/-- State of a `src/mesh_chat.py` `MeshNode`: `peers` maps peer id to
its `last_seen` timestamp, `routing_table` maps destination id to
next-hop id, `message_ids_seen` is the bounded dedup cache.  The cache
is a Python `set`; it is kept here canonically in insertion order, and
the set's unspecified iteration order enters through the `enum`
parameter of the handlers.  A packet without a `msg_id` key inserts
Python's `None` into the set, hence the `Option String` elements.
`onMessageLog` logs `on_message` invocations and `peersUpdateCount`
counts `on_peers_update` invocations. -/
structure ChatNode where
  node_id : String
  peers : List (String × Int)
  routing_table : List (String × String)
  message_ids_seen : List (Option String)
  running : Bool
  onMessageLog : List ChatCall
  peersUpdateCount : Nat
deriving DecidableEq

/-- A freshly constructed `mesh_chat.MeshNode(node_id, ...)`. -/
def initChat (nid : String) : ChatNode :=
  { node_id := nid, peers := [], routing_table := [], message_ids_seen := [],
    running := false, onMessageLog := [], peersUpdateCount := 0 }

/-- An iteration order for the dedup set: the order `list(s)` would
enumerate the set's contents in.  CPython only guarantees that it is
some permutation of the contents. -/
def ChatEnum : Type := List (Option String) → List (Option String)

/-- Python slicing `l[-k:]`: the last `k` elements (the whole list when
it is shorter than `k`). -/
def pyTakeLast {α : Type} (k : Nat) (l : List α) : List α :=
  l.drop (l.length - k)

/-- Lines 173 to 177 of `mesh_chat.py`: add the id to the dedup set and,
when the set then holds more than 1000 ids, replace it by the last 500
elements of its iteration order (`set(list(s)[-500:])`). -/
def truncAdd (enum : ChatEnum) (seen : List (Option String)) (id : Option String) :
    List (Option String) :=
  let s := seen ++ [id]
  if s.length > 1000 then pyTakeLast 500 (enum s) else s

/-- The dedup-cache `mark` operation of the spec, as `mesh_chat.py`
(and identically `mesh_chat_termux.py`) implements it inline in its
MESSAGE handler: an id already present is left alone (the handler
returns before the add), otherwise it is added with the capacity
enforcement of `truncAdd`. -/
def markSeen (enum : ChatEnum) (seen : List (Option String)) (id : Option String) :
    List (Option String) :=
  if id ∈ seen then seen else truncAdd enum seen id

/-- Method `_handle_message` of `mesh_chat.py`: duplicate ids are
dropped, fresh ids are recorded (with cache truncation); a packet
addressed to this node fires `on_message`, any other packet is
re-broadcast with decremented ttl while ttl is positive. -/
def handleMessage (enum : ChatEnum) (s : ChatNode) (p : ChatPacket) :
    ChatNode × List ChatPacket :=
  if p.msg_id ∈ s.message_ids_seen then (s, [])
  else
    let s1 := { s with message_ids_seen := truncAdd enum s.message_ids_seen p.msg_id }
    if p.dst = some s1.node_id then
      ({ s1 with onMessageLog := s1.onMessageLog ++
          [{ msg_id := p.msg_id, src := p.src, payload := p.payload }] }, [])
    else
      let ttl : Int := p.ttl.getD 0
      if ttl > 0 then (s1, [{ p with ttl := some (ttl - 1) }]) else (s1, [])

/-- Method `_handle_hello` of `mesh_chat.py`: ignore falsy ids and the
node's own id, refresh the peer's `last_seen`, learn the direct route,
and notify `on_peers_update`. -/
def handleChatHello (s : ChatNode) (p : ChatPacket) (now : Int) : ChatNode × List ChatPacket :=
  match truthy p.node_id with
  | none => (s, [])
  | some pid =>
    if pid = s.node_id then (s, [])
    else
      ({ s with peers := dput s.peers pid now,
                routing_table := dput s.routing_table pid pid,
                peersUpdateCount := s.peersUpdateCount + 1 }, [])

/-- Method `_handle_packet` of `mesh_chat.py`. -/
def handleChatPacket (enum : ChatEnum) (s : ChatNode) (p : ChatPacket) (now : Int) :
    ChatNode × List ChatPacket :=
  if p.ptype = some "HELLO" then handleChatHello s p now
  else if p.ptype = some "MESSAGE" then handleMessage enum s p
  else (s, [])

/-- The stale-peer list one `_cleanup_loop` iteration computes: peers
whose `last_seen` is more than 15 seconds old. -/
def staleOf (s : ChatNode) (now : Int) : List String :=
  (s.peers.filter (fun pt => now - pt.2 > 15)).map Prod.fst

/-- One iteration of `_cleanup_loop` of `mesh_chat.py`: delete every
stale peer, delete the routing entries keyed by the evicted peer ids,
and notify `on_peers_update` once when anything was evicted. -/
def cleanupSweep (s : ChatNode) (now : Int) : ChatNode :=
  let stale := staleOf s now
  let s1 := { s with peers := s.peers.filter (fun pt => ¬ now - pt.2 > 15),
                     routing_table := s.routing_table.filter (fun kv => kv.1 ∉ stale) }
  if stale = [] then s1 else { s1 with peersUpdateCount := s1.peersUpdateCount + 1 }

/-- An event the chat node's worker threads can process: an inbound
decoded packet (with the wall-clock time its handling reads) or one
liveness-sweep iteration. -/
inductive ChatEvent where
  | recv (p : ChatPacket) (now : Int)
  | sweep (now : Int)

/-- One event step of the chat node. -/
def chatStep (enum : ChatEnum) (s : ChatNode) : ChatEvent → ChatNode
  | .recv p now => (handleChatPacket enum s p now).1
  | .sweep now => cleanupSweep s now

/-- Run the chat node over a sequence of events. -/
def runChat (enum : ChatEnum) (s : ChatNode) : List ChatEvent → ChatNode
  | [] => s
  | e :: rest => runChat enum (chatStep enum s e) rest

/-!
Python-value level embedding of the `_listen_loop` body of
`src/src/mesh/mesh_node.py`.

The loop catches only the exceptions of `json.loads`; the subsequent
`self._handle_packet(packet, addr)` call sits outside the `try` block,
so any exception it raises escapes and terminates the listening thread.
To settle the robustness claim the handlers are therefore re-embedded
over arbitrary decoded JSON values (`PyVal`), with the Python
exceptions they can raise made explicit in an `Except`.  JSON numbers
are modelled as integers, `int()` applied to a string is modelled for
pure optionally-signed digit strings, and Python's cross-type `==`
(always `False` between a string and a non-string, never raising) and
its `bool`/`int` equality unification are modelled in `pyEqHashable`;
only hashable values can become set elements or dict keys, which the
handlers' own membership checks enforce before anything is stored.
-/

/-- A decoded JSON value as `json.loads` produces it (floats omitted:
no embedded logic here depends on non-integral numbers). -/
inductive PyVal where
  | pyNone
  | pyBool (b : Bool)
  | pyInt (n : Int)
  | pyStr (s : String)
  | pyList (xs : List PyVal)
  | pyDict (kvs : List (String × PyVal))

/-- A Python exception escaping `_handle_packet`. -/
inductive PyErr where
  | attributeError
  | typeError
  | valueError
deriving DecidableEq, Repr

/-- Python truthiness of an arbitrary value. -/
def pyTruthy : PyVal → Bool
  | .pyNone => false
  | .pyBool b => b
  | .pyInt n => ¬ n = 0
  | .pyStr s => ¬ s = ""
  | .pyList xs => ¬ xs.isEmpty
  | .pyDict kvs => ¬ kvs.isEmpty

/-- Whether a value may be a set element or dict key; Python raises
`TypeError` on unhashable lists and dicts. -/
def pyHashable : PyVal → Bool
  | .pyList _ => false
  | .pyDict _ => false
  | _ => true

/-- Python `==` where at least one side is hashable (the only equality
the embedded handlers perform): `True == 1` holds, every cross-type
comparison involving a container is `False`, and comparison never
raises. -/
def pyEqHashable : PyVal → PyVal → Bool
  | .pyNone, .pyNone => true
  | .pyBool a, .pyBool b => a = b
  | .pyInt a, .pyInt b => a = b
  | .pyStr a, .pyStr b => a = b
  | .pyBool a, .pyInt b => (if a then (1 : Int) else 0) = b
  | .pyInt a, .pyBool b => a = (if b then (1 : Int) else 0)
  | _, _ => false

/-- Python `v == s` for a string literal `s`. -/
def pyEqStr (v : PyVal) (s : String) : Bool :=
  match v with
  | .pyStr t => t = s
  | _ => false

/-- Python `int(v)`: ints pass through, bools coerce, pure
optionally-signed digit strings parse, everything else raises. -/
def pyToInt : PyVal → Except PyErr Int
  | .pyInt n => .ok n
  | .pyBool b => .ok (if b then 1 else 0)
  | .pyStr s =>
    match s.toInt? with
    | some n => .ok n
    | none => .error .valueError
  | _ => .error .typeError

/-- Python set membership `v in s`: raises on an unhashable probe. -/
def pySetMem (v : PyVal) (s : List PyVal) : Except PyErr Bool :=
  if pyHashable v then .ok (s.any (fun w => pyEqHashable w v)) else .error .typeError

/-- Python `d.get(k)` for a Python-valued dict: raises on an unhashable
key. -/
def pyMapGet {α : Type} (d : List (PyVal × α)) (k : PyVal) : Except PyErr (Option α) :=
  if pyHashable k then .ok ((d.find? (fun kv => pyEqHashable kv.1 k)).map Prod.snd)
  else .error .typeError

/-- Python `d[k] = v` for a Python-valued dict: raises on an unhashable
key, otherwise overwrites in place or appends. -/
def pyMapPut {α : Type} (d : List (PyVal × α)) (k : PyVal) (v : α) :
    Except PyErr (List (PyVal × α)) :=
  if pyHashable k then
    if (d.find? (fun kv => pyEqHashable kv.1 k)).isSome then
      .ok (d.map (fun kv => if pyEqHashable kv.1 k then (k, v) else kv))
    else .ok (d ++ [(k, v)])
  else .error .typeError

/-- State of a `mesh_node.py` node at the Python-value level; fields as
in `SimNode` but with arbitrary decoded JSON values in the tables, and
with `on_message` invocations only counted. -/
structure PyNode where
  node_id : String
  neighbors : List (PyVal × Addr)
  routing_table : List (PyVal × PyVal)
  delivered_messages : List PyVal
  running : Bool
  inbox : List (PyVal × PyVal × PyVal)
  onMessageCalls : Nat

/-- A freshly constructed node, at the Python-value level. -/
def pyInit (nid : String) : PyNode :=
  { node_id := nid, neighbors := [], routing_table := [], delivered_messages := [],
    running := true, inbox := [], onMessageCalls := 0 }

/-- Method `_forward` at the Python-value level. -/
def forwardPy (s : PyNode) (kvs : List (String × PyVal)) :
    Except PyErr (List (PyVal × Addr)) := do
  let dest := (dget kvs "dest").getD .pyNone
  let nh ← pyMapGet s.routing_table dest
  let next_hop := nh.getD .pyNone
  let flood : List (PyVal × Addr) :=
    let ph := (dget kvs "prev_hop").getD .pyNone
    (s.neighbors.filter (fun kv => ¬ pyEqHashable kv.1 ph)).map
      (fun kv => (.pyDict kvs, kv.2))
  if pyTruthy next_hop then do
    let a ← pyMapGet s.neighbors next_hop
    match a with
    | some addr => pure [(.pyDict kvs, addr)]
    | none => pure flood
  else
    pure flood

/-- Method `_send_ack` at the Python-value level. -/
def sendAckPy (s : PyNode) (dest : PyVal) (msg_id : PyVal) :
    Except PyErr (List (PyVal × Addr)) := do
  if ¬ pyTruthy dest then
    pure []
  else do
    let ack : PyVal := .pyDict
      [("type", .pyStr "ACK"), ("msg_id", msg_id),
       ("source", .pyStr s.node_id), ("dest", dest)]
    let nh ← pyMapGet s.routing_table dest
    let next_hop := nh.getD .pyNone
    let fallback : Except PyErr (List (PyVal × Addr)) := do
      let a ← pyMapGet s.neighbors dest
      match a with
      | some addr => pure [(ack, addr)]
      | none => pure (s.neighbors.map (fun kv => (ack, kv.2)))
    if pyTruthy next_hop then do
      let a ← pyMapGet s.neighbors next_hop
      match a with
      | some addr => pure [(ack, addr)]
      | none => fallback
    else
      fallback

/-- Method `_handle_data` at the Python-value level. -/
def handleDataPy (s : PyNode) (kvs : List (String × PyVal)) :
    Except PyErr (PyNode × List (PyVal × Addr)) := do
  let msg_id := (dget kvs "msg_id").getD .pyNone
  if ¬ pyTruthy msg_id then
    pure (s, [])
  else do
    let dup ← pySetMem msg_id s.delivered_messages
    if dup then
      pure (s, [])
    else do
      let s1 := { s with delivered_messages := s.delivered_messages ++ [msg_id] }
      let dest := (dget kvs "dest").getD .pyNone
      let ttl ← pyToInt ((dget kvs "ttl").getD (.pyInt 0))
      let source := (dget kvs "source").getD .pyNone
      let prev_hop := (dget kvs "prev_hop").getD .pyNone
      let s2 ←
        if pyTruthy prev_hop ∧ pyTruthy source then do
          let rt ← pyMapPut s1.routing_table source prev_hop
          pure { s1 with routing_table := rt }
        else
          pure s1
      if pyEqStr dest s2.node_id then do
        let payload := (dget kvs "payload").getD .pyNone
        let s3 := { s2 with inbox := s2.inbox ++ [(source, msg_id, payload)],
                            onMessageCalls := s2.onMessageCalls + 1 }
        let sends ← sendAckPy s3 source msg_id
        pure (s3, sends)
      else if ttl ≤ 0 then
        pure (s2, [])
      else do
        let fwd := dput (dput kvs "ttl" (.pyInt (ttl - 1))) "prev_hop" (.pyStr s2.node_id)
        let sends ← forwardPy s2 fwd
        pure (s2, sends)

/-- Method `_handle_hello` at the Python-value level. -/
def handleHelloPy (s : PyNode) (kvs : List (String × PyVal)) (addr : Addr) :
    Except PyErr (PyNode × List (PyVal × Addr)) := do
  let nid := (dget kvs "node_id").getD .pyNone
  if ¬ pyTruthy nid then
    pure (s, [])
  else do
    let nb ← pyMapPut s.neighbors nid addr
    let rt ← pyMapPut s.routing_table nid nid
    let hello : PyVal := .pyDict [("type", .pyStr "HELLO"), ("node_id", .pyStr s.node_id)]
    pure ({ s with neighbors := nb, routing_table := rt }, [(hello, addr)])

/-- Method `_handle_packet` at the Python-value level: probing `.get`
on a decoded value that is not a JSON object raises `AttributeError`. -/
def handlePacketPy (s : PyNode) (v : PyVal) (addr : Addr) :
    Except PyErr (PyNode × List (PyVal × Addr)) :=
  match v with
  | .pyDict kvs =>
    let ptype := (dget kvs "type").getD .pyNone
    if pyEqStr ptype "HELLO" then handleHelloPy s kvs addr
    else if pyEqStr ptype "DATA" then handleDataPy s kvs
    else .ok (s, [])
  | _ => .error .attributeError

/-- The body of one `_listen_loop` iteration after a datagram was
received: a `json.loads` failure is caught by the `try` block and the
loop continues with the state unchanged (`decoded = none`); on success
`_handle_packet` runs outside the `try` block, so an exception it
raises escapes and kills the listening thread (the `.error` results). -/
def listenStepPy (s : PyNode) (decoded : Option PyVal) (addr : Addr) :
    Except PyErr (PyNode × List (PyVal × Addr)) :=
  match decoded with
  | none => .ok (s, [])
  | some v => handlePacketPy s v addr

/-!
An injective encoding of naturals as strings, used to generate the
many distinct message ids the dedup-cache counterexamples need.
-/

/-- Binary digit list of `n`, computed with explicit fuel so that the
recursion is structural (the fuel `n` itself always suffices, since the
halving argument shrinks at least as fast as the fuel). -/
def natBitsAux : Nat → Nat → List Char
  | 0, _ => []
  | fuel + 1, n =>
    if n = 0 then []
    else (if n % 2 = 1 then 'a' else 'b') :: natBitsAux fuel (n / 2)

/-- Binary encoding of a natural as a string of the letters a and b;
injective, so ranges of naturals yield lists of distinct ids. -/
def natBits (n : Nat) : List Char :=
  natBitsAux n n

/-- Message id number `n`. -/
def idOf (n : Nat) : String :=
  String.mk (natBits n)

/-!
Concrete fixtures used by counterexamples and witnesses.
-/

/-- A relay with two live neighbors B and C and no learned routes. -/
def relayNodeC2 : SimNode :=
  { initSim "R" with neighbors := [("B", ("ipB", 1)), ("C", ("ipC", 2))] }

/-- A fresh DATA packet relayed by R: it arrived from neighbor B
(`prev_hop = B`) and is destined for the unknown node D. -/
def relayPktC2 : SimPacket :=
  { ptype := some "DATA", msg_id := some "m1", source := some "A", dest := some "D",
    ttl := some 5, payload := some "x", prev_hop := some "B", node_id := none }

/-- The copy R re-emits: ttl decremented, `prev_hop` rewritten to R. -/
def relayFwdC2 : SimPacket :=
  { relayPktC2 with ttl := some 4, prev_hop := some "R" }

/-- A node that already delivered message id m1 and has a learned route
to S via C. -/
def dupNodeC5 : SimNode :=
  { initSim "A" with delivered_messages := ["m1"], routing_table := [("S", "C")] }

/-- A duplicate DATA packet for m1, arriving this time from neighbor B
(`prev_hop = B`) with `source = S`. -/
def dupPktC5 : SimPacket :=
  { ptype := some "DATA", msg_id := some "m1", source := some "S", dest := some "A",
    ttl := some 3, payload := some "x", prev_hop := some "B", node_id := none }

/-- A node that already delivered message id m9. -/
def dupNodeC9 : SimNode :=
  { initSim "A" with delivered_messages := ["m9"] }

/-- A duplicate DATA packet for m9. -/
def dupPktC9 : SimPacket :=
  { ptype := some "DATA", msg_id := some "m9", source := some "S", dest := some "A",
    ttl := some 3, payload := some "y", prev_hop := some "B", node_id := none }

/-- A node with the running flag set, as after `start()`. -/
def runningNodeC8 : SimNode :=
  { initSim "A" with running := true }

/-- A relay with one neighbor, used to witness the ttl theorem. -/
def relayNodeC4 : SimNode :=
  { initSim "R" with neighbors := [("B", ("ipB", 1))] }

/-- A fresh DATA packet for an unknown destination with ttl 0. -/
def deadPktC4 : SimPacket :=
  { ptype := some "DATA", msg_id := some "m4", source := some "A", dest := some "D",
    ttl := some 0, payload := some "x", prev_hop := some "B", node_id := none }

/-- A node with one neighbor S, used to witness local delivery. -/
def recvNodeC10 : SimNode :=
  { initSim "A" with neighbors := [("S", ("ipS", 1))] }

/-- A fresh DATA packet addressed to the node itself with ttl 0. -/
def localPktC10 : SimPacket :=
  { ptype := some "DATA", msg_id := some "m10", source := some "S", dest := some "A",
    ttl := some 0, payload := some "hello", prev_hop := some "S", node_id := none }

/-- A node with a fresh route, used to witness route learning. -/
def freshNodeC5 : SimNode := initSim "A"

/-- Number of deliveries (inbox entries or `on_message` invocations)
carrying message id `m`. -/
def delivCount (l : List DataDelivery) (m : String) : Nat :=
  l.countP (fun d => d.id == m)

/-- Invariant of every reachable `mesh_chat.py` node state: the routing
table only ever holds direct routes (next hop equals destination, the
only kind its `_handle_hello` creates) and every routing key has a peer
entry. -/
def routesInv (s : ChatNode) : Prop :=
  ∀ kv ∈ s.routing_table, kv.2 = kv.1 ∧ ∃ t, (kv.1, t) ∈ s.peers

/-- HELLO from node B at time 0, as decoded by `mesh_chat.py`. -/
def helloPktB : ChatPacket :=
  { ptype := some "HELLO", msg_id := none, dst := none, src := none,
    payload := none, ttl := none, node_id := some "B" }

/-- HELLO from node C. -/
def helloPktC : ChatPacket :=
  { ptype := some "HELLO", msg_id := none, dst := none, src := none,
    payload := none, ttl := none, node_id := some "C" }

/-- Two discoveries: B announces at time 0, C at time 10. -/
def evsC6 : List ChatEvent :=
  [.recv helloPktB 0, .recv helloPktC 10]

/-- A MESSAGE packet for some other node X with ttl 0, used to push
message ids through the dedup cache of a node Z without triggering any
delivery or re-broadcast. -/
def relayPkt (id : Option String) : ChatPacket :=
  { ptype := some "MESSAGE", msg_id := id, dst := some "X", src := none,
    payload := none, ttl := some 0, node_id := none }

/-- The MESSAGE whose duplicate delivery the C1 counterexample
exhibits: id number 1000, addressed to node Z. -/
def pmPkt : ChatPacket :=
  { ptype := some "MESSAGE", msg_id := some (idOf 1000), dst := some "Z",
    src := some "A", payload := some "hi", ttl := some 5, node_id := none }

/-- The 999 distinct filler ids 0 to 998. -/
def batchIds : List (Option String) :=
  (List.range 999).map (fun k => some (idOf k))

/-- The C1 counterexample run: deliver message 1000, then receive 999
distinct relayed ids, then id 999 (which overflows the cache and
truncates it, evicting id 1000), then a duplicate of message 1000. -/
def evsC1 : List ChatEvent :=
  [.recv pmPkt 0] ++ batchIds.map (fun id => ChatEvent.recv (relayPkt id) 0) ++
    [.recv (relayPkt (some (idOf 999))) 0, .recv pmPkt 0]

/-- The single `on_message` invocation the C1 counterexample's target
message produces per delivery. -/
def pmCall : ChatCall :=
  { msg_id := some (idOf 1000), src := some "A", payload := some "hi" }

/-- The 1001 distinct ids 0 to 1000 marked in the C3 counterexample. -/
def idsC3 : List (Option String) :=
  (List.range 1001).map (fun k => some (idOf k))

/-- C1 counterexample, state after the first delivery of message 1000. -/
def chatA : ChatNode :=
  { initChat "Z" with message_ids_seen := [some (idOf 1000)], onMessageLog := [pmCall] }

/-- C1 counterexample, state after the 999 filler ids. -/
def chatB : ChatNode :=
  { chatA with message_ids_seen := chatA.message_ids_seen ++ batchIds }

/-- C1 counterexample, state after id 999 overflowed the cache: the
insertion-order listing is truncated to its last 500 entries, which
drops id 1000. -/
def chatC : ChatNode :=
  { chatB with message_ids_seen := (batchIds ++ [some (idOf 999)]).drop 500 }

/-- C1 counterexample, state after the duplicate delivery of message
1000: `on_message` has now fired twice for the same msg_id. -/
def chatD : ChatNode :=
  { chatC with message_ids_seen := chatC.message_ids_seen ++ [some (idOf 1000)],
               onMessageLog := chatC.onMessageLog ++ [pmCall] }

/-- A fresh DATA packet from source S arriving via neighbor B. -/
def freshPktC5 : SimPacket :=
  { ptype := some "DATA", msg_id := some "m5", source := some "S", dest := some "A",
    ttl := some 3, payload := some "x", prev_hop := some "B", node_id := none }

end MeshSpec

namespace MeshSpec

/-!
Helper lemmas about the association-list dictionary operations and the
injective id encoding.
-/

theorem dget_dput_self {β α : Type} [DecidableEq β] (d : List (β × α)) (k : β) (v : α) :
    dget (dput d k v) k = some v := by
  induction d with
  | nil => simp [dput, dget]
  | cons hd tl ih =>
    by_cases h : hd.1 = k
    · simp [dput, h, dget]
    · simp [dput, h, dget, ih]

theorem mem_dput {β α : Type} [DecidableEq β] {kv : β × α} {d : List (β × α)} {k : β} {v : α}
    (h : kv ∈ dput d k v) : kv = (k, v) ∨ kv ∈ d := by
  induction d with
  | nil => simpa [dput] using h
  | cons hd tl ih =>
    by_cases hk : hd.1 = k
    · simp only [dput, if_pos hk, List.mem_cons] at h
      rcases h with h | h
      · exact Or.inl h
      · exact Or.inr (List.mem_cons_of_mem _ h)
    · simp only [dput, if_neg hk, List.mem_cons] at h
      rcases h with h | h
      · exact Or.inr (h ▸ List.mem_cons_self _ _)
      · rcases ih h with h | h
        · exact Or.inl h
        · exact Or.inr (List.mem_cons_of_mem _ h)

theorem mem_dput_self {β α : Type} [DecidableEq β] (d : List (β × α)) (k : β) (v : α) :
    (k, v) ∈ dput d k v := by
  induction d with
  | nil => simp [dput]
  | cons hd tl ih =>
    by_cases hk : hd.1 = k
    · simp [dput, hk]
    · simp only [dput, if_neg hk, List.mem_cons]
      exact Or.inr ih

theorem mem_dput_of_ne {β α : Type} [DecidableEq β] {kv : β × α} {d : List (β × α)}
    {k : β} {v : α} (h : kv ∈ d) (hne : ¬ kv.1 = k) : kv ∈ dput d k v := by
  induction d with
  | nil => cases h
  | cons hd tl ih =>
    by_cases hk : hd.1 = k
    · simp only [dput, if_pos hk, List.mem_cons]
      rcases List.mem_cons.mp h with h | h
      · exact absurd (h ▸ hk) hne
      · exact Or.inr h
    · simp only [dput, if_neg hk, List.mem_cons]
      rcases List.mem_cons.mp h with h | h
      · exact Or.inl h
      · exact Or.inr (ih h)

theorem natBitsAux_zero (fuel : Nat) : natBitsAux fuel 0 = [] := by
  cases fuel <;> simp [natBitsAux]

theorem natBitsAux_fuel_irrel : ∀ n f1 f2 : Nat, n ≤ f1 → n ≤ f2 →
    natBitsAux f1 n = natBitsAux f2 n := by
  intro n
  induction n using Nat.strong_induction_on with
  | _ n ih =>
    intro f1 f2 h1 h2
    cases n with
    | zero => rw [natBitsAux_zero, natBitsAux_zero]
    | succ m =>
      cases f1 with
      | zero => omega
      | succ g1 =>
        cases f2 with
        | zero => omega
        | succ g2 =>
          simp only [natBitsAux, if_neg (Nat.succ_ne_zero m)]
          rw [ih ((m + 1) / 2) (by omega) g1 g2 (by omega) (by omega)]

theorem natBits_zero : natBits 0 = [] := rfl

theorem natBits_succ (n : Nat) :
    natBits (n + 1) = (if (n + 1) % 2 = 1 then 'a' else 'b') :: natBits ((n + 1) / 2) := by
  show natBitsAux (n + 1) (n + 1) = _
  simp only [natBitsAux, if_neg (Nat.succ_ne_zero n)]
  rw [natBitsAux_fuel_irrel ((n + 1) / 2) n ((n + 1) / 2) (by omega) (by omega)]
  rfl

theorem natBits_inj : ∀ m n : Nat, natBits m = natBits n → m = n := by
  intro m
  induction m using Nat.strong_induction_on with
  | _ m ih =>
    intro n h
    cases m with
    | zero =>
      cases n with
      | zero => rfl
      | succ k => rw [natBits_zero, natBits_succ] at h; exact absurd h (by simp)
    | succ j =>
      cases n with
      | zero => rw [natBits_succ, natBits_zero] at h; exact absurd h (by simp)
      | succ k =>
        rw [natBits_succ, natBits_succ] at h
        injection h with hh ht
        have hdiv : (j + 1) / 2 = (k + 1) / 2 :=
          ih ((j + 1) / 2) (Nat.div_lt_self (Nat.succ_pos j) (by decide)) ((k + 1) / 2) ht
        have hmod : (j + 1) % 2 = (k + 1) % 2 := by
          by_contra hne
          rcases Nat.mod_two_eq_zero_or_one (j + 1) with hj | hj <;>
            rcases Nat.mod_two_eq_zero_or_one (k + 1) with hk | hk
          · exact hne (hj.trans hk.symm)
          · rw [hj, hk] at hh; exact absurd hh (by decide)
          · rw [hj, hk] at hh; exact absurd hh (by decide)
          · exact hne (hj.trans hk.symm)
        omega

theorem idOf_injective : Function.Injective idOf := by
  intro m n h
  exact natBits_inj m n (congrArg String.data h)

theorem floodExcept_fst (s : SimNode) (p : SimPacket) :
    ∀ q ∈ floodExcept s p, q.1 = p := by
  intro q hq
  unfold floodExcept at hq
  rcases List.mem_map.mp hq with ⟨kv, _, hkv⟩
  exact hkv ▸ rfl

theorem forwardPkt_fst (s : SimNode) (p : SimPacket) :
    ∀ q ∈ forwardPkt s p, q.1 = p := by
  intro q hq
  unfold forwardPkt at hq
  split at hq
  · split at hq
    · rcases List.mem_singleton.mp hq with rfl
      rfl
    · exact floodExcept_fst s p q hq
  · exact floodExcept_fst s p q hq

theorem ackFallback_fst (s : SimNode) (d : String) (m : String) :
    ∀ q ∈ ackFallback s d m, q.1 = ackPkt s.node_id d m := by
  intro q hq
  unfold ackFallback at hq
  split at hq
  · rcases List.mem_singleton.mp hq with rfl
    rfl
  · rcases List.mem_map.mp hq with ⟨kv, _, hkv⟩
    exact hkv ▸ rfl

theorem sendAck_ptype (s : SimNode) (dest : Option String) (m : String) :
    ∀ q ∈ sendAck s dest m, q.1.ptype = some "ACK" := by
  intro q hq
  unfold sendAck at hq
  split at hq
  · cases hq
  · rename_i d _
    split at hq
    · split at hq
      · rcases List.mem_singleton.mp hq with rfl
        rfl
      · rw [ackFallback_fst s d m q hq]
        rfl
    · rw [ackFallback_fst s d m q hq]
      rfl

theorem learnReverse_node_id (s : SimNode) (p : SimPacket) :
    (learnReverse s p).node_id = s.node_id := by
  unfold learnReverse
  split <;> rfl

theorem learnReverse_inbox (s : SimNode) (p : SimPacket) :
    (learnReverse s p).inbox = s.inbox := by
  unfold learnReverse
  split <;> rfl

theorem learnReverse_calls (s : SimNode) (p : SimPacket) :
    (learnReverse s p).onMessageCalls = s.onMessageCalls := by
  unfold learnReverse
  split <;> rfl

theorem learnReverse_delivered (s : SimNode) (p : SimPacket) :
    (learnReverse s p).delivered_messages = s.delivered_messages := by
  unfold learnReverse
  split <;> rfl

/-!
Claim theorems.
-/

/-- Claim C8: starting an already running node leaves it unchanged,
stopping an already stopped node leaves it unchanged, and the lifecycle
state is the two-valued running flag (`start` always lands on Running,
`stop` always lands on Stopped), so the only transitions are Stopped to
Running to Stopped with no intermediate states. -/
theorem C8_lifecycle (s : SimNode) :
    (s.running = true → startSim s = s) ∧
    (s.running = false → stopSim s = s) ∧
    (startSim s).running = true ∧
    (stopSim s).running = false := by
  refine ⟨?_, ?_, ?_, ?_⟩
  · intro h
    simp [startSim, h]
  · intro h
    cases s
    simp_all [stopSim]
  · by_cases h : s.running <;> simp [startSim, h]
  · simp [stopSim]

/-- Witness for C8 at concrete states. -/
theorem C8_lifecycle_witness :
    startSim runningNodeC8 = runningNodeC8 ∧ stopSim (initSim "A") = initSim "A" :=
  ⟨(C8_lifecycle runningNodeC8).1 rfl, (C8_lifecycle (initSim "A")).2.1 rfl⟩

/-- Claim C9: an inbound DATA packet whose (truthy) msg_id is already
in the dedup cache leaves the node state completely unchanged and emits
nothing: no inbox append, no callback, no route learning from its
prev_hop, no re-emission. -/
theorem C9_duplicate_is_noop (s : SimNode) (p : SimPacket) (m : String)
    (h1 : truthy p.msg_id = some m) (h2 : m ∈ s.delivered_messages) :
    handleData s p = (s, []) := by
  unfold handleData
  rw [h1]
  simp [h2]

/-- Witness for C9: a concrete duplicate arriving with a new prev_hop
is a complete no-op. -/
theorem C9_duplicate_is_noop_witness :
    handleData dupNodeC9 dupPktC9 = (dupNodeC9, []) :=
  C9_duplicate_is_noop dupNodeC9 dupPktC9 "m9" rfl (by decide)

/-- Claim C2, behavior at the failing input: relay node R (neighbors B
and C, no route to the destination D) handles a fresh DATA packet that
arrived from B with `prev_hop = B`; because `_handle_data` rewrites
`prev_hop` to R before calling `_forward`, the flood exclusion compares
each neighbor against R itself and the relayed copy is sent to BOTH
neighbors, including B, the neighbor it was just received from. -/
theorem C2_relay_floods_back_to_previous_hop :
    (handleData relayNodeC2 relayPktC2).2 =
      [(relayFwdC2, ("ipB", 1)), (relayFwdC2, ("ipC", 2))] := by
  decide

/-- Claim C7, behavior at the failing input: a datagram whose bytes are
valid JSON but not a JSON object (for example the two bytes of an empty
array) passes the `json.loads` `try` block and then raises
`AttributeError` inside `_handle_packet`, which runs outside the `try`;
the listening thread dies.  By contrast an undecodable datagram
(`decoded = none`) is dropped silently and the loop continues. -/
theorem C7_nondict_json_kills_listener :
    listenStepPy (pyInit "A") (some (.pyList [])) ("ip", 1) = .error .attributeError ∧
    listenStepPy (pyInit "A") none ("ip", 1) = .ok (pyInit "A", []) :=
  ⟨rfl, rfl⟩

/-- Claim C5, counterexample: a DATA packet carrying `source = S` and
`prev_hop = B` whose msg_id is already in the dedup cache is dropped
before route learning, so the routing table still maps S to the old
next hop C, not to B, contradicting the claim that every inbound DATA
packet with a source and a previous hop updates the route. -/
theorem C5_duplicate_learns_no_route :
    dget ((handleData dupNodeC5 dupPktC5).1.routing_table) "S" = some "C" ∧
    ¬ dget ((handleData dupNodeC5 dupPktC5).1.routing_table) "S" = some "B" := by
  decide

/-- Claim C5 as amended: for every inbound DATA packet with a truthy,
not-previously-seen msg_id and truthy `source` and `prev_hop` fields,
handling the packet leaves the routing table mapping the packet's
source to its previous hop. -/
theorem C5_route_learning (s : SimNode) (p : SimPacket) (m src ph : String)
    (h1 : truthy p.msg_id = some m) (h2 : m ∉ s.delivered_messages)
    (h3 : truthy p.source = some src) (h4 : truthy p.prev_hop = some ph) :
    dget ((handleData s p).1.routing_table) src = some ph := by
  unfold handleData
  rw [h1]
  simp only [if_neg h2, learnReverse, h3, h4]
  split
  · exact dget_dput_self _ _ _
  · split
    · exact dget_dput_self _ _ _
    · exact dget_dput_self _ _ _

/-- Witness for the amended C5 at a concrete fresh packet. -/
theorem C5_route_learning_witness :
    dget ((handleData freshNodeC5 freshPktC5).1.routing_table) "S" = some "B" :=
  C5_route_learning freshNodeC5 freshPktC5 "m5" "S" "B" rfl (by decide) rfl rfl

/-- Claim C4: for a fresh DATA packet not addressed to this node, a
non-positive remaining ttl means the packet is dropped (nothing is
emitted, so nothing can be delivered downstream either) and it is not
delivered locally; every copy that is emitted carries exactly the
received ttl minus one and the relay's id as prev_hop. -/
theorem C4_ttl_decrement (s : SimNode) (p : SimPacket) (m : String)
    (h1 : truthy p.msg_id = some m) (h2 : m ∉ s.delivered_messages)
    (h3 : ¬ p.dest = some s.node_id) :
    (p.ttl.getD 0 ≤ 0 → (handleData s p).2 = []) ∧
    (∀ q ∈ (handleData s p).2,
      q.1.ttl = some (p.ttl.getD 0 - 1) ∧ q.1.prev_hop = some s.node_id) ∧
    (handleData s p).1.inbox = s.inbox := by
  unfold handleData
  rw [h1]
  simp only [if_neg h2, if_neg h3]
  by_cases ht : p.ttl.getD 0 ≤ 0
  · rw [if_pos ht]
    refine ⟨fun _ => rfl, ?_, ?_⟩
    · intro q hq
      cases hq
    · rw [learnReverse_inbox]
  · rw [if_neg ht]
    refine ⟨fun hc => absurd hc ht, ?_, ?_⟩
    · intro q hq
      rw [forwardPkt_fst _ _ q hq]
      exact ⟨rfl, rfl⟩
    · rw [learnReverse_inbox]

/-- Witness for C4: a concrete relay drops a ttl-0 packet without
emitting anything and without delivering it. -/
theorem C4_ttl_decrement_witness :
    (handleData relayNodeC4 deadPktC4).2 = [] ∧
    (handleData relayNodeC4 deadPktC4).1.inbox = [] := by
  obtain ⟨ha, _, hc⟩ := C4_ttl_decrement relayNodeC4 deadPktC4 "m4" rfl (by decide) (by decide)
  exact ⟨ha (by decide), hc⟩

/-- Claim C10: a fresh DATA packet addressed to this node is delivered
locally (one inbox append and one `on_message` invocation) for every
ttl value, including ttl 0, and the node never re-emits the DATA packet
itself: everything it may emit in response is an ACK packet. -/
theorem C10_local_delivery (s : SimNode) (p : SimPacket) (m : String)
    (h1 : truthy p.msg_id = some m) (h2 : m ∉ s.delivered_messages)
    (h3 : p.dest = some s.node_id) :
    (handleData s p).1.inbox = s.inbox ++ [{ src := p.source, id := m, payload := p.payload }] ∧
    (handleData s p).1.onMessageCalls =
      s.onMessageCalls ++ [{ src := p.source, id := m, payload := p.payload }] ∧
    ∀ q ∈ (handleData s p).2, q.1.ptype = some "ACK" := by
  unfold handleData
  rw [h1]
  simp only [if_neg h2, if_pos h3]
  refine ⟨?_, ?_, ?_⟩
  · simp [learnReverse_inbox]
  · simp [learnReverse_calls]
  · intro q hq
    exact sendAck_ptype _ _ _ q hq

/-- Witness for C10: a concrete ttl-0 packet addressed to the node is
delivered. -/
theorem C10_local_delivery_witness :
    (handleData recvNodeC10 localPktC10).1.inbox =
      [{ src := some "S", id := "m10", payload := some "hello" }] :=
  (C10_local_delivery recvNodeC10 localPktC10 "m10" rfl (by decide) rfl).1

theorem delivCount_append_one (l : List DataDelivery) (d : DataDelivery) (m : String) :
    delivCount (l ++ [d]) m = delivCount l m + (if d.id = m then 1 else 0) := by
  unfold delivCount
  rw [List.countP_append]
  simp [List.countP_cons]

theorem memOne_le_append (l l2 : List String) (m : String) :
    (if m ∈ l then 1 else 0 : Nat) ≤ (if m ∈ l ++ l2 then 1 else 0 : Nat) := by
  by_cases h : m ∈ l
  · rw [if_pos h, if_pos (List.mem_append_left _ h)]
  · rw [if_neg h]
    exact Nat.zero_le _

theorem c1_step (s : SimNode) (p : SimPacket) (a : Addr) (m : String)
    (hi : delivCount s.inbox m ≤ (if m ∈ s.delivered_messages then 1 else 0))
    (hc : delivCount s.onMessageCalls m ≤ (if m ∈ s.delivered_messages then 1 else 0)) :
    delivCount (handlePacket s p a).1.inbox m ≤
      (if m ∈ (handlePacket s p a).1.delivered_messages then 1 else 0) ∧
    delivCount (handlePacket s p a).1.onMessageCalls m ≤
      (if m ∈ (handlePacket s p a).1.delivered_messages then 1 else 0) := by
  unfold handlePacket
  by_cases hH : p.ptype = some "HELLO"
  · rw [if_pos hH]
    unfold handleHello
    cases htr : truthy p.node_id
    · exact ⟨hi, hc⟩
    · exact ⟨hi, hc⟩
  · rw [if_neg hH]
    by_cases hD : p.ptype = some "DATA"
    · rw [if_pos hD]
      unfold handleData
      cases htm : truthy p.msg_id with
      | none => exact ⟨hi, hc⟩
      | some mid =>
        by_cases hmem : mid ∈ s.delivered_messages
        · simp only [if_pos hmem]
          exact ⟨hi, hc⟩
        · simp only [if_neg hmem]
          by_cases hdest : p.dest = some s.node_id
          · simp only [if_pos hdest]
            constructor
            · rw [learnReverse_inbox, learnReverse_delivered, delivCount_append_one]
              by_cases hm : mid = m
              · subst hm
                rw [if_neg hmem] at hi
                rw [if_pos (List.mem_append_right _ (List.mem_singleton_self mid))]
                simpa using hi
              · rw [if_neg hm, Nat.add_zero]
                exact le_trans hi (memOne_le_append _ _ _)
            · rw [learnReverse_calls, learnReverse_delivered, delivCount_append_one]
              by_cases hm : mid = m
              · subst hm
                rw [if_neg hmem] at hc
                rw [if_pos (List.mem_append_right _ (List.mem_singleton_self mid))]
                simpa using hc
              · rw [if_neg hm, Nat.add_zero]
                exact le_trans hc (memOne_le_append _ _ _)
          · simp only [if_neg hdest]
            by_cases ht : p.ttl.getD 0 ≤ 0
            · simp only [if_pos ht, learnReverse_inbox, learnReverse_calls,
                learnReverse_delivered]
              exact ⟨le_trans hi (memOne_le_append _ _ _), le_trans hc (memOne_le_append _ _ _)⟩
            · simp only [if_neg ht, learnReverse_inbox, learnReverse_calls,
                learnReverse_delivered]
              exact ⟨le_trans hi (memOne_le_append _ _ _), le_trans hc (memOne_le_append _ _ _)⟩
    · rw [if_neg hD]
      exact ⟨hi, hc⟩

theorem c1_run (evs : List (SimPacket × Addr)) (m : String) :
    ∀ s : SimNode,
      delivCount s.inbox m ≤ (if m ∈ s.delivered_messages then 1 else 0) →
      delivCount s.onMessageCalls m ≤ (if m ∈ s.delivered_messages then 1 else 0) →
      delivCount (runSim s evs).inbox m ≤
        (if m ∈ (runSim s evs).delivered_messages then 1 else 0) ∧
      delivCount (runSim s evs).onMessageCalls m ≤
        (if m ∈ (runSim s evs).delivered_messages then 1 else 0) := by
  induction evs with
  | nil => exact fun s hi hc => ⟨hi, hc⟩
  | cons e rest ih =>
    intro s hi hc
    obtain ⟨hi2, hc2⟩ := c1_step s e.1 e.2 m hi hc
    exact ih _ hi2 hc2

/-- Claim C1 as amended: for the desktop-sim node of
`src/src/mesh/mesh_node.py`, whose dedup set is unbounded, over every
sequence of inbound packets from node start, the inbox receives at most
one entry and the `on_message` callback fires at most once for any
given message id. -/
theorem C1_at_most_once (nid : String) (evs : List (SimPacket × Addr)) (m : String) :
    delivCount (runSim (initSim nid) evs).inbox m ≤ 1 ∧
    delivCount (runSim (initSim nid) evs).onMessageCalls m ≤ 1 := by
  obtain ⟨hi, hc⟩ := c1_run evs m (initSim nid)
    (by simp [delivCount, initSim]) (by simp [delivCount, initSim])
  constructor
  · refine le_trans hi ?_
    split <;> omega
  · refine le_trans hc ?_
    split <;> omega

theorem handleMessage_routing (enum : ChatEnum) (s : ChatNode) (p : ChatPacket) :
    (handleMessage enum s p).1.routing_table = s.routing_table ∧
    (handleMessage enum s p).1.peers = s.peers := by
  simp only [handleMessage]
  split_ifs <;> exact ⟨rfl, rfl⟩

theorem routesInv_hello (s : ChatNode) (p : ChatPacket) (now : Int)
    (h : routesInv s) : routesInv (handleChatHello s p now).1 := by
  unfold handleChatHello
  cases htr : truthy p.node_id with
  | none => exact h
  | some pid =>
    by_cases hself : pid = s.node_id
    · simp only [if_pos hself]
      exact h
    · simp only [if_neg hself]
      intro kv hkv
      rcases mem_dput hkv with heq | hkv2
      · subst heq
        exact ⟨rfl, now, mem_dput_self _ _ _⟩
      · obtain ⟨heq, t, ht⟩ := h kv hkv2
        refine ⟨heq, ?_⟩
        by_cases hk : kv.1 = pid
        · exact ⟨now, by rw [hk]; exact mem_dput_self _ _ _⟩
        · exact ⟨t, mem_dput_of_ne ht hk⟩

theorem mem_staleOf (s : ChatNode) (now : Int) (pid : String) (t : Int)
    (hmem : (pid, t) ∈ s.peers) (ht : now - t > 15) : pid ∈ staleOf s now := by
  unfold staleOf
  exact List.mem_map.mpr ⟨(pid, t), List.mem_filter.mpr ⟨hmem, by simpa using ht⟩, rfl⟩

theorem cleanupSweep_peers (s : ChatNode) (now : Int) :
    (cleanupSweep s now).peers = s.peers.filter (fun pt => ¬ now - pt.2 > 15) := by
  simp only [cleanupSweep]
  split <;> rfl

theorem cleanupSweep_routing (s : ChatNode) (now : Int) :
    (cleanupSweep s now).routing_table =
      s.routing_table.filter (fun kv => kv.1 ∉ staleOf s now) := by
  simp only [cleanupSweep]
  split <;> rfl

theorem cleanupSweep_count (s : ChatNode) (now : Int) :
    (cleanupSweep s now).peersUpdateCount =
      s.peersUpdateCount + (if staleOf s now = [] then 0 else 1) := by
  simp only [cleanupSweep]
  split <;> rfl

theorem routesInv_sweep (s : ChatNode) (now : Int)
    (h : routesInv s) : routesInv (cleanupSweep s now) := by
  intro kv hkv
  rw [cleanupSweep_routing] at hkv
  obtain ⟨hkv2, hstale⟩ := List.mem_filter.mp hkv
  obtain ⟨heq, t, ht⟩ := h kv hkv2
  refine ⟨heq, t, ?_⟩
  rw [cleanupSweep_peers]
  refine List.mem_filter.mpr ⟨ht, ?_⟩
  simp only [decide_eq_true_eq, Decidable.not_not]
  intro hgt
  exact absurd (mem_staleOf s now kv.1 t ht hgt) (by simpa using hstale)

theorem routesInv_step (enum : ChatEnum) (s : ChatNode) (e : ChatEvent)
    (h : routesInv s) : routesInv (chatStep enum s e) := by
  cases e with
  | recv p now =>
    show routesInv (handleChatPacket enum s p now).1
    unfold handleChatPacket
    by_cases hH : p.ptype = some "HELLO"
    · rw [if_pos hH]
      exact routesInv_hello s p now h
    · rw [if_neg hH]
      by_cases hM : p.ptype = some "MESSAGE"
      · rw [if_pos hM]
        intro kv hkv
        rw [(handleMessage_routing enum s p).1] at hkv
        obtain ⟨heq, t, ht⟩ := h kv hkv
        exact ⟨heq, t, (handleMessage_routing enum s p).2 ▸ ht⟩
      · rw [if_neg hM]
        exact h
  | sweep now => exact routesInv_sweep s now h

theorem routesInv_run (enum : ChatEnum) (evs : List ChatEvent) :
    ∀ s : ChatNode, routesInv s → routesInv (runChat enum s evs) := by
  induction evs with
  | nil => exact fun s h => h
  | cons e rest ih =>
    intro s h
    exact ih _ (routesInv_step enum s e h)

theorem cleanupSweep_spec (s : ChatNode) (now : Int) (h : routesInv s) :
    (∀ pid t, (pid, t) ∈ (cleanupSweep s now).peers ↔
      ((pid, t) ∈ s.peers ∧ ¬ now - t > 15)) ∧
    (∀ kv ∈ (cleanupSweep s now).routing_table,
      kv.2 ∉ staleOf s now ∧ ∃ t, (kv.2, t) ∈ (cleanupSweep s now).peers) ∧
    (cleanupSweep s now).peersUpdateCount =
      s.peersUpdateCount + (if staleOf s now = [] then 0 else 1) := by
  refine ⟨?_, ?_, cleanupSweep_count s now⟩
  · intro pid t
    rw [cleanupSweep_peers]
    constructor
    · intro hmem
      obtain ⟨h1, h2⟩ := List.mem_filter.mp hmem
      exact ⟨h1, by simpa using h2⟩
    · intro hmem
      exact List.mem_filter.mpr ⟨hmem.1, by simpa using hmem.2⟩
  · intro kv hkv
    have hkv0 := hkv
    rw [cleanupSweep_routing] at hkv0
    obtain ⟨hkv2, hstale⟩ := List.mem_filter.mp hkv0
    have hnotstale : kv.1 ∉ staleOf s now := by simpa using hstale
    obtain ⟨heq, t, ht⟩ := routesInv_sweep s now h kv hkv
    exact ⟨heq ▸ hnotstale, t, heq ▸ ht⟩

/-- Claim C6: from any reachable `mesh_chat.py` state, one cleanup
sweep removes exactly the peers whose last_seen lies more than the
15-second staleness window in the past, after it no routing entry has
an evicted or non-live next hop, and the peer-change observer is
notified exactly once when the sweep evicted anything and not at all
otherwise. -/
theorem C6_sweep_exact (nid : String) (enum : ChatEnum) (evs : List ChatEvent) (now : Int) :
    (∀ pid t, (pid, t) ∈ (cleanupSweep (runChat enum (initChat nid) evs) now).peers ↔
      ((pid, t) ∈ (runChat enum (initChat nid) evs).peers ∧ ¬ now - t > 15)) ∧
    (∀ kv ∈ (cleanupSweep (runChat enum (initChat nid) evs) now).routing_table,
      kv.2 ∉ staleOf (runChat enum (initChat nid) evs) now ∧
      ∃ t, (kv.2, t) ∈ (cleanupSweep (runChat enum (initChat nid) evs) now).peers) ∧
    (cleanupSweep (runChat enum (initChat nid) evs) now).peersUpdateCount =
      (runChat enum (initChat nid) evs).peersUpdateCount +
        (if staleOf (runChat enum (initChat nid) evs) now = [] then 0 else 1) :=
  cleanupSweep_spec (runChat enum (initChat nid) evs) now
    (routesInv_run enum evs (initChat nid) (fun kv hkv => absurd hkv (List.not_mem_nil kv)))

/-- Witness for C6: B announced at time 0 and C at time 10; sweeping at
time 20 keeps C alive and notifies the observer exactly once. -/
theorem C6_sweep_exact_witness :
    ("C", (10 : Int)) ∈ (cleanupSweep (runChat (fun l => l) (initChat "Z") evsC6) 20).peers ∧
    (cleanupSweep (runChat (fun l => l) (initChat "Z") evsC6) 20).peersUpdateCount =
      (runChat (fun l => l) (initChat "Z") evsC6).peersUpdateCount + 1 := by
  obtain ⟨h1, _, h3⟩ := C6_sweep_exact "Z" (fun l => l) evsC6 20
  refine ⟨(h1 "C" 10).mpr ⟨by decide, by decide⟩, h3.trans (by decide)⟩

theorem not_mem_range_map (n bound : Nat) (h : ¬ n < bound) :
    some (idOf n) ∉ (List.range bound).map (fun k => some (idOf k)) := by
  intro hmem
  obtain ⟨k, hk, heq⟩ := List.mem_map.mp hmem
  exact h (idOf_injective (Option.some.inj heq) ▸ List.mem_range.mp hk)

theorem range_map_nodup (bound : Nat) :
    ((List.range bound).map (fun k => some (idOf k))).Nodup :=
  (List.nodup_range bound).map (fun _ _ hab => idOf_injective (Option.some.inj hab))

theorem truncAdd_no_trunc (enum : ChatEnum) (seen : List (Option String)) (id : Option String)
    (hlen : seen.length + 1 ≤ 1000) : truncAdd enum seen id = seen ++ [id] := by
  unfold truncAdd
  rw [if_neg]
  simp only [List.length_append, List.length_singleton]
  omega

theorem markSeen_fresh (enum : ChatEnum) (seen : List (Option String)) (id : Option String)
    (hfresh : id ∉ seen) (hlen : seen.length + 1 ≤ 1000) :
    markSeen enum seen id = seen ++ [id] := by
  unfold markSeen
  rw [if_neg hfresh]
  exact truncAdd_no_trunc enum seen id hlen

theorem foldl_markSeen_batch (enum : ChatEnum) :
    ∀ (l seen : List (Option String)),
      (∀ x ∈ l, x ∉ seen) → l.Nodup → seen.length + l.length ≤ 1000 →
      List.foldl (markSeen enum) seen l = seen ++ l := by
  intro l
  induction l with
  | nil =>
    intro seen _ _ _
    simp
  | cons x xs ih =>
    intro seen hfresh hnodup hlen
    rw [List.foldl_cons,
      markSeen_fresh enum seen x (hfresh x (List.mem_cons_self x xs))
        (by simp only [List.length_cons] at hlen; omega)]
    rw [ih (seen ++ [x]) ?_ (List.Nodup.of_cons hnodup) ?_]
    · simp
    · intro y hy
      simp only [List.mem_append, List.mem_singleton]
      rintro (hys | rfl)
      · exact hfresh y (List.mem_cons_of_mem x hy) hys
      · exact (List.nodup_cons.mp hnodup).1 hy
    · simp only [List.length_append, List.length_singleton, List.length_cons,
        List.length_nil] at hlen ⊢
      omega

theorem markSeen_length_le (enum : ChatEnum) (seen : List (Option String))
    (id : Option String) (h : seen.length ≤ 1000) :
    (markSeen enum seen id).length ≤ 1000 := by
  simp only [markSeen, truncAdd, pyTakeLast]
  split
  · exact h
  · split
    · rw [List.length_drop]
      omega
    · rename_i hgt
      simp only [List.length_append, List.length_singleton] at hgt ⊢
      omega

/-- Claim C3 as amended: for every iteration order of the underlying
set and every sequence of mark operations from a fresh node, the dedup
cache never holds more than 1000 ids after a mark (truncation cuts it
to 500 when the bound is exceeded). -/
theorem C3_cache_bounded (enum : ChatEnum) (ids : List (Option String)) :
    (List.foldl (markSeen enum) [] ids).length ≤ 1000 := by
  have hstep : ∀ seen : List (Option String), seen.length ≤ 1000 →
      (List.foldl (markSeen enum) seen ids).length ≤ 1000 := by
    induction ids with
    | nil => exact fun seen h => h
    | cons x xs ih =>
      intro seen h
      rw [List.foldl_cons]
      exact ih _ (markSeen_length_le enum seen x h)
  exact hstep [] (by simp)

/-- Claim C3, counterexample: mark the 1001 distinct ids 0 to 1000 in
order; at the overflow the cache is rebuilt from the tail of the set's
iteration order, and under the reversed iteration order (a legal
enumeration of a Python set, which guarantees no particular order) the
most recently inserted id 1000 is evicted, leaving 500 ids.  This
refutes both "truncation keeps the most recently inserted half" and
"the most recently inserted id is always still present". -/
theorem C3_newest_id_evicted :
    some (idOf 1000) ∉ List.foldl (markSeen List.reverse) [] idsC3 ∧
    (List.foldl (markSeen List.reverse) [] idsC3).length = 500 := by
  have hsplit : idsC3 = ((List.range 1000).map (fun k => some (idOf k))) ++ [some (idOf 1000)] := by
    unfold idsC3
    rw [List.range_succ, List.map_append]
    rfl
  rw [hsplit, List.foldl_append,
    foldl_markSeen_batch List.reverse _ [] (by intro x _ hx; cases hx)
      (range_map_nodup 1000) (by simp)]
  rw [List.nil_append, List.foldl_cons, List.foldl_nil]
  rw [show markSeen List.reverse ((List.range 1000).map (fun k => some (idOf k)))
        (some (idOf 1000)) =
      pyTakeLast 500 (List.reverse
        (((List.range 1000).map (fun k => some (idOf k))) ++ [some (idOf 1000)])) from by
    unfold markSeen truncAdd
    rw [if_neg (not_mem_range_map 1000 1000 (by omega)), if_pos (by simp)]]
  rw [List.reverse_append, List.reverse_singleton, List.singleton_append]
  unfold pyTakeLast
  rw [show (some (idOf 1000) ::
        (List.reverse ((List.range 1000).map (fun k => some (idOf k))))).length - 500 = 501 by
    simp]
  rw [show (501 : Nat) = 500 + 1 from rfl, List.drop_succ_cons]
  constructor
  · intro hmem
    have h2 := List.mem_reverse.mp (List.mem_of_mem_drop hmem)
    exact not_mem_range_map 1000 1000 (by omega) h2
  · simp

theorem runChat_append (enum : ChatEnum) (l1 l2 : List ChatEvent) :
    ∀ s : ChatNode, runChat enum s (l1 ++ l2) = runChat enum (runChat enum s l1) l2 := by
  induction l1 with
  | nil => exact fun s => rfl
  | cons e rest ih =>
    intro s
    simp only [List.cons_append, runChat]
    exact ih _

theorem handleMessage_relay_fresh (enum : ChatEnum) (s : ChatNode) (id : Option String)
    (hne : ¬ s.node_id = "X") (hfresh : id ∉ s.message_ids_seen)
    (hlen : s.message_ids_seen.length + 1 ≤ 1000) :
    handleMessage enum s (relayPkt id) =
      ({ s with message_ids_seen := s.message_ids_seen ++ [id] }, []) := by
  simp only [handleMessage, relayPkt]
  rw [if_neg hfresh]
  rw [truncAdd_no_trunc enum _ id hlen]
  rw [if_neg (show ¬ (some "X" : Option String) = some s.node_id from
    fun hc => hne (Option.some.inj hc).symm)]
  rw [if_neg (by norm_num)]

theorem chatStep_relay_fresh (enum : ChatEnum) (s : ChatNode) (id : Option String) (t : Int)
    (hne : ¬ s.node_id = "X") (hfresh : id ∉ s.message_ids_seen)
    (hlen : s.message_ids_seen.length + 1 ≤ 1000) :
    chatStep enum s (.recv (relayPkt id) t) =
      { s with message_ids_seen := s.message_ids_seen ++ [id] } := by
  show (handleChatPacket enum s (relayPkt id) t).1 = _
  simp only [handleChatPacket]
  rw [if_neg (show ¬ (relayPkt id).ptype = some "HELLO" from by simp [relayPkt]),
    if_pos (show (relayPkt id).ptype = some "MESSAGE" from rfl),
    handleMessage_relay_fresh enum s id hne hfresh hlen]

theorem runChat_relay_batch (enum : ChatEnum) (t : Int) :
    ∀ (l : List (Option String)) (s : ChatNode),
      ¬ s.node_id = "X" →
      (∀ x ∈ l, x ∉ s.message_ids_seen) → l.Nodup →
      s.message_ids_seen.length + l.length ≤ 1000 →
      runChat enum s (l.map (fun id => ChatEvent.recv (relayPkt id) t)) =
        { s with message_ids_seen := s.message_ids_seen ++ l } := by
  intro l
  induction l with
  | nil =>
    intro s _ _ _ _
    simp [runChat]
  | cons x xs ih =>
    intro s hne hfresh hnodup hlen
    rw [List.map_cons]
    show runChat enum (chatStep enum s (.recv (relayPkt x) t)) _ = _
    rw [chatStep_relay_fresh enum s x t hne (hfresh x (List.mem_cons_self x xs))
      (by simp only [List.length_cons] at hlen; omega)]
    rw [ih { s with message_ids_seen := s.message_ids_seen ++ [x] } hne ?_
      (List.Nodup.of_cons hnodup) ?_]
    · simp
    · intro y hy
      simp only [List.mem_append, List.mem_singleton]
      rintro (hys | rfl)
      · exact hfresh y (List.mem_cons_of_mem x hy) hys
      · exact (List.nodup_cons.mp hnodup).1 hy
    · simp only [List.length_append, List.length_singleton, List.length_cons,
        List.length_nil] at hlen ⊢
      omega

theorem batchIds_length : batchIds.length = 999 := by
  simp only [batchIds, List.length_map, List.length_range]

theorem chatB_seen_length : chatB.message_ids_seen.length = 1000 := by
  show (some (idOf 1000) :: batchIds).length = 1000
  rw [List.length_cons, batchIds_length]

theorem chatStepA : chatStep (fun l => l) (initChat "Z") (.recv pmPkt 0) = chatA := by
  show (handleChatPacket (fun l => l) (initChat "Z") pmPkt 0).1 = chatA
  simp only [handleChatPacket]
  rw [if_neg (show ¬ pmPkt.ptype = some "HELLO" from by simp [pmPkt]),
    if_pos (show pmPkt.ptype = some "MESSAGE" from rfl)]
  simp only [handleMessage]
  rw [if_neg (show ¬ pmPkt.msg_id ∈ (initChat "Z").message_ids_seen from by
    simp [pmPkt, initChat])]
  rw [truncAdd_no_trunc _ _ _ (by norm_num [initChat])]
  rw [if_pos (show pmPkt.dst = some (initChat "Z").node_id from rfl)]
  rfl

theorem chatRunB :
    runChat (fun l => l) chatA (batchIds.map (fun id => ChatEvent.recv (relayPkt id) 0)) =
      chatB := by
  rw [runChat_relay_batch (fun l => l) 0 batchIds chatA (by decide) ?_ ?_ ?_]
  · rfl
  · intro x hx
    simp only [batchIds, List.mem_map, List.mem_range] at hx
    obtain ⟨k, hk, rfl⟩ := hx
    show ¬ some (idOf k) ∈ [some (idOf 1000)]
    simp only [List.mem_singleton]
    intro heq
    have := idOf_injective (Option.some.inj heq)
    omega
  · exact range_map_nodup 999
  · show ([some (idOf 1000)] : List (Option String)).length + batchIds.length ≤ 1000
    rw [batchIds_length]
    norm_num

theorem chatStepC :
    chatStep (fun l => l) chatB (.recv (relayPkt (some (idOf 999))) 0) = chatC := by
  have hfreshTrig : ¬ some (idOf 999) ∈ chatB.message_ids_seen := by
    show ¬ some (idOf 999) ∈ some (idOf 1000) :: batchIds
    simp only [List.mem_cons]
    rintro (heq | hmem)
    · have := idOf_injective (Option.some.inj heq)
      omega
    · exact not_mem_range_map 999 999 (by omega) hmem
  have hbig : (chatB.message_ids_seen ++ [some (idOf 999)]).length > 1000 := by
    rw [List.length_append, chatB_seen_length]
    norm_num
  have htrunc : truncAdd (fun l => l) chatB.message_ids_seen (some (idOf 999)) =
      (batchIds ++ [some (idOf 999)]).drop 500 := by
    simp only [truncAdd]
    rw [if_pos hbig]
    show (some (idOf 1000) :: (batchIds ++ [some (idOf 999)])).drop
        ((some (idOf 1000) :: (batchIds ++ [some (idOf 999)])).length - 500) =
      (batchIds ++ [some (idOf 999)]).drop 500
    rw [show (some (idOf 1000) :: (batchIds ++ [some (idOf 999)])).length - 500 = 500 + 1 from by
      rw [List.length_cons, List.length_append, batchIds_length]
      simp]
    rw [List.drop_succ_cons]
  show (handleChatPacket (fun l => l) chatB (relayPkt (some (idOf 999))) 0).1 = chatC
  simp only [handleChatPacket]
  rw [if_neg (show ¬ (relayPkt (some (idOf 999))).ptype = some "HELLO" from by simp [relayPkt]),
    if_pos (show (relayPkt (some (idOf 999))).ptype = some "MESSAGE" from rfl)]
  simp only [handleMessage]
  rw [if_neg (show ¬ (relayPkt (some (idOf 999))).msg_id ∈ chatB.message_ids_seen from
    hfreshTrig)]
  rw [show truncAdd (fun l => l) chatB.message_ids_seen (relayPkt (some (idOf 999))).msg_id =
    (batchIds ++ [some (idOf 999)]).drop 500 from htrunc]
  rw [if_neg (show ¬ (relayPkt (some (idOf 999))).dst = some chatB.node_id from by
    simp [relayPkt]
    decide)]
  rw [if_neg (show ¬ (relayPkt (some (idOf 999))).ttl.getD 0 > 0 from by norm_num [relayPkt])]
  rfl

theorem chatStepD : chatStep (fun l => l) chatC (.recv pmPkt 0) = chatD := by
  have hfreshBack : ¬ pmPkt.msg_id ∈ chatC.message_ids_seen := by
    show ¬ some (idOf 1000) ∈ (batchIds ++ [some (idOf 999)]).drop 500
    intro hmem
    rcases List.mem_append.mp (List.mem_of_mem_drop hmem) with hmem2 | hmem2
    · exact not_mem_range_map 1000 999 (by omega) hmem2
    · have := idOf_injective (Option.some.inj (List.mem_singleton.mp hmem2))
      omega
  have hlenC : chatC.message_ids_seen.length + 1 ≤ 1000 := by
    show ((batchIds ++ [some (idOf 999)]).drop 500).length + 1 ≤ 1000
    rw [List.length_drop, List.length_append, batchIds_length]
    norm_num
  show (handleChatPacket (fun l => l) chatC pmPkt 0).1 = chatD
  simp only [handleChatPacket]
  rw [if_neg (show ¬ pmPkt.ptype = some "HELLO" from by simp [pmPkt]),
    if_pos (show pmPkt.ptype = some "MESSAGE" from rfl)]
  simp only [handleMessage]
  rw [if_neg hfreshBack]
  rw [truncAdd_no_trunc _ _ _ hlenC]
  rw [if_pos (show pmPkt.dst = some chatC.node_id from rfl)]
  rfl

/-- Claim C1, counterexample: on the bounded-cache `mesh_chat.py` node,
deliver message 1000, push 999 distinct relayed ids through the dedup
cache, then push id 999, which overflows the 1000-entry bound; under
the insertion-order enumeration of the set (a legal Python iteration
order, and by construction a permutation of the cache contents) the
truncation to the last 500 listed entries evicts id 1000, so when the
very same message 1000 arrives a second time, `on_message` fires again:
two invocations for one msg_id. -/
theorem C1_duplicate_delivery :
    (runChat (fun l => l) (initChat "Z") evsC1).onMessageLog = [pmCall, pmCall] := by
  have hsingle : ∀ (s : ChatNode) (e : ChatEvent),
      runChat (fun l => l) s [e] = chatStep (fun l => l) s e := fun s e => rfl
  have hpair : ∀ (s : ChatNode) (e1 e2 : ChatEvent),
      runChat (fun l => l) s [e1, e2] =
        chatStep (fun l => l) (chatStep (fun l => l) s e1) e2 := fun s e1 e2 => rfl
  have hevs : evsC1 =
      [ChatEvent.recv pmPkt 0] ++ batchIds.map (fun id => ChatEvent.recv (relayPkt id) 0) ++
        [ChatEvent.recv (relayPkt (some (idOf 999))) 0, ChatEvent.recv pmPkt 0] := rfl
  rw [hevs, runChat_append, runChat_append, hsingle, chatStepA, chatRunB, hpair, chatStepC,
    chatStepD]
  rfl

end MeshSpec
